import Mathlib

/-!
Shallow embedding of the HSK learning app core (src/app.py): the quiz
session handlers (quiz_start, quiz_question, quiz_submit, quiz_next,
quiz_result) and the flashcard navigation / progress-marking handler
(flashcards).  The SQLite vocabulary table is modelled as a list of rows;
the Flask session dict is modelled as a structure of optional quiz keys;
a KeyError / ValueError / TypeError raised by the Python code is modelled
as the error case of Except.  random.sample and random.shuffle are
modelled as deterministic functions parameterised by a stream of random
numbers; they satisfy exactly the guarantees of the library functions
(sampling without replacement, ValueError on an oversized request,
shuffle is a permutation).
-/

/-- A row of the vocabulary table.  id is INTEGER PRIMARY KEY (unique);
hsk_level is stored as the canonical integer form of the tier. -/
structure Vocab where
  id : Nat
  hanzi : String
  pinyin : String
  meaning : String
  hsk_level : Nat
deriving DecidableEq

/-- The Flask session, restricted to the keys the quiz handlers touch.
A missing key is none; session.get with a default reads through getD. -/
structure Session where
  quiz_words : Option (List Nat) := none
  quiz_current : Option Nat := none
  quiz_correct : Option Nat := none
  quiz_feedback : Option String := none
  quiz_level : Option Nat := none
  quiz_total : Option Nat := none
deriving DecidableEq

def emptySession : Session := {}

/-- Unhandled Python exceptions the handlers can raise. -/
inductive PyError where
  | keyError
  | valueError
  | typeError
deriving DecidableEq

/-- SELECT * FROM vocabulary WHERE hsk_level=? (row order by id follows
the list order of the table). -/
def vocabByLevel (db : List Vocab) (level : Nat) : List Vocab :=
  db.filter (fun v => v.hsk_level == level)

/-- SELECT * FROM vocabulary WHERE id=? followed by fetchone. -/
def selectVocabById (db : List Vocab) (i : Nat) : Option Vocab :=
  (db.filter (fun v => v.id == i)).head?

/-- Model of random.sample(pool, k): draw k elements without replacement,
the randomness supplied as a stream of numbers used as indices into the
remaining pool.  Returns none exactly when k exceeds the pool size, the
case in which the library raises ValueError. -/
def randSample {α : Type} : List Nat → List α → Nat → Option (List α)
  | _, _, 0 => some []
  | rand, pool, k + 1 =>
    if pool.length = 0 then none
    else
      match pool[rand.headD 0 % pool.length]? with
      | none => none
      | some x =>
        (randSample (rand.drop 1) (pool.eraseIdx (rand.headD 0 % pool.length)) k).map
          (fun t => x :: t)

/-- Model of random.shuffle: a permutation of the input driven by the
randomness stream (implemented as an exhaustive sample). -/
def randShuffle {α : Type} (rand : List Nat) (l : List α) : List α :=
  (randSample rand l l.length).getD l

theorem perm_cons_eraseIdx {α : Type} (l : List α) (i : Nat) (h : i < l.length) :
    l.Perm (l[i] :: l.eraseIdx i) := by
  conv_lhs => rw [← List.take_append_drop i l, ← List.getElem_cons_drop l i h]
  rw [List.eraseIdx_eq_take_drop_succ]
  exact List.perm_middle

theorem randSample_length {α : Type} (k : Nat) :
    ∀ (rand : List Nat) (pool l : List α),
      randSample rand pool k = some l → l.length = k := by
  induction k with
  | zero =>
    intro rand pool l hs
    simp only [randSample, Option.some.injEq] at hs
    simp [← hs]
  | succ k ih =>
    intro rand pool l hs
    unfold randSample at hs
    split at hs
    · exact absurd hs (by simp)
    · split at hs
      · exact absurd hs (by simp)
      · rw [Option.map_eq_some'] at hs
        obtain ⟨t, ht, rfl⟩ := hs
        simp [ih _ _ _ ht]

theorem randSample_count {α : Type} [DecidableEq α] (k : Nat) :
    ∀ (rand : List Nat) (pool l : List α),
      randSample rand pool k = some l → ∀ y, l.count y ≤ pool.count y := by
  induction k with
  | zero =>
    intro rand pool l hs y
    simp only [randSample, Option.some.injEq] at hs
    simp [← hs]
  | succ k ih =>
    intro rand pool l hs y
    unfold randSample at hs
    split at hs
    · exact absurd hs (by simp)
    · rename_i hp
      split at hs
      · exact absurd hs (by simp)
      · rename_i x hx
        rw [Option.map_eq_some'] at hs
        obtain ⟨t, ht, rfl⟩ := hs
        obtain ⟨hi, hxe⟩ := List.getElem?_eq_some.mp hx
        have hperm := perm_cons_eraseIdx pool _ hi
        have hcnt := hperm.count_eq y
        rw [hxe] at hcnt
        have hrec := ih _ _ _ ht y
        rw [hcnt, List.count_cons, List.count_cons]
        omega

theorem randSample_isSome {α : Type} (k : Nat) :
    ∀ (rand : List Nat) (pool : List α), k ≤ pool.length →
      (randSample rand pool k).isSome := by
  induction k with
  | zero => intro rand pool _; simp [randSample]
  | succ k ih =>
    intro rand pool hk
    unfold randSample
    have hp : pool.length ≠ 0 := by omega
    rw [if_neg hp]
    have hi : rand.headD 0 % pool.length < pool.length := Nat.mod_lt _ (by omega)
    rw [List.getElem?_eq_getElem hi]
    have hlen : (pool.eraseIdx (rand.headD 0 % pool.length)).length = pool.length - 1 := by
      rw [List.length_eraseIdx, if_pos hi]
    obtain ⟨t, ht⟩ := Option.isSome_iff_exists.mp
      (ih (rand.drop 1) (pool.eraseIdx (rand.headD 0 % pool.length)) (by omega))
    rw [ht]
    rfl

theorem randSample_perm {α : Type} (k : Nat) :
    ∀ (rand : List Nat) (pool l : List α), k = pool.length →
      randSample rand pool k = some l → l.Perm pool := by
  induction k with
  | zero =>
    intro rand pool l hk hs
    simp only [randSample, Option.some.injEq] at hs
    subst hs
    have : pool = [] := List.length_eq_zero.mp hk.symm
    simp [this]
  | succ k ih =>
    intro rand pool l hk hs
    unfold randSample at hs
    split at hs
    · exact absurd hs (by simp)
    · rename_i hp
      split at hs
      · exact absurd hs (by simp)
      · rename_i x hx
        rw [Option.map_eq_some'] at hs
        obtain ⟨t, ht, rfl⟩ := hs
        obtain ⟨hi, hxe⟩ := List.getElem?_eq_some.mp hx
        have hlen : (pool.eraseIdx (rand.headD 0 % pool.length)).length = pool.length - 1 := by
          rw [List.length_eraseIdx, if_pos hi]
        have hperm := ih (rand.drop 1) _ t (by omega) ht
        have := perm_cons_eraseIdx pool _ hi
        rw [hxe] at this
        exact ((hperm.cons x).trans this.symm)

theorem randShuffle_perm {α : Type} (rand : List Nat) (l : List α) :
    (randShuffle rand l).Perm l := by
  unfold randShuffle
  cases hs : randSample rand l l.length with
  | none => simp
  | some t => simpa using randSample_perm _ _ _ _ rfl hs

theorem randSample_mem {α : Type} [DecidableEq α] {rand : List Nat}
    {pool l : List α} {k : Nat} (hs : randSample rand pool k = some l) :
    ∀ y ∈ l, y ∈ pool := by
  intro y hy
  have h1 : 0 < l.count y := List.count_pos_iff.mpr hy
  have h2 := randSample_count k rand pool l hs y
  exact List.count_pos_iff.mp (by omega)

theorem randSample_nodup {α : Type} [DecidableEq α] {rand : List Nat}
    {pool l : List α} {k : Nat} (hnd : pool.Nodup)
    (hs : randSample rand pool k = some l) : l.Nodup := by
  rw [List.nodup_iff_count_le_one] at hnd ⊢
  intro y
  exact le_trans (randSample_count k rand pool l hs y) (hnd y)

/-- Page outcomes of the question-rendering handlers (redirects and the
rendered question page).  The options list holds Option Vocab because the
Python code appends the fetchone result for the target, which is a row or
None, to the sampled distractor rows. -/
inductive QOutcome where
  | redirectStart
  | redirectResult
  | page (question : Option Vocab) (options : List (Option Vocab))
      (current : Nat) (total : Nat)
deriving DecidableEq

/-- Non-exception outcomes of quiz_start. -/
inductive StartOutcome where
  | errNotMultiple
  | errNotEnough (maxAllowed : Nat)
  | redirectQuestion
deriving DecidableEq

/-- quiz_start (src/app.py lines 354-378), POST branch.  num is the parsed
form integer.  Python num % 5 agrees with Int emod for the positive
modulus 5.  random.sample raises ValueError for a negative count; on the
success path num is therefore nonnegative and is stored as a Nat. -/
def quiz_start (db : List Vocab) (level : Nat) (num : Int) (rand : List Nat)
    (s : Session) : Except PyError (Session × StartOutcome) :=
  if num % 5 ≠ 0 then .ok (s, .errNotMultiple)
  else
    let pool := (vocabByLevel db level).map (fun v => v.id)
    if (pool.length : Int) < num then .ok (s, .errNotEnough pool.length)
    else if num < 0 then .error .valueError
    else
      match randSample rand pool num.toNat with
      | none => .error .valueError
      | some ids =>
        .ok ({ s with quiz_words := some ids, quiz_current := some 0,
                      quiz_correct := some 0, quiz_level := some level,
                      quiz_total := some num.toNat }, .redirectQuestion)

/-- quiz_question (src/app.py lines 392-421).  rand1 drives the distractor
sample, rand2 the shuffle. -/
def quiz_question (db : List Vocab) (level : Nat) (s : Session)
    (rand1 rand2 : List Nat) : Except PyError QOutcome :=
  let words := s.quiz_words.getD []
  let current := s.quiz_current.getD 0
  if words.isEmpty then .ok .redirectStart
  else if h : words.length ≤ current then .ok .redirectResult
  else
    let question_id := words.get ⟨current, by omega⟩
    let question := selectVocabById db question_id
    match randSample rand1 ((vocabByLevel db level).filter (fun v => v.id != question_id)) 3 with
    | none => .error .valueError
    | some ds =>
      .ok (.page question (randShuffle rand2 (ds.map some ++ [question]))
        current words.length)

/-- quiz_submit (src/app.py lines 427-446).  Incrementing a missing
quiz_correct key raises KeyError; subscripting a missing correct row
raises TypeError.  The reads of quiz_words and quiz_current in the source
are dead and omitted. -/
def quiz_submit (db : List Vocab) (answer_id correct_id : Nat) (s : Session) :
    Except PyError (Session × String) :=
  if answer_id = correct_id then
    match s.quiz_correct with
    | none => .error .keyError
    | some c =>
      let feedback := r"Correct!"
      .ok ({ s with quiz_correct := some (c + 1), quiz_feedback := some feedback },
        feedback)
  else
    match selectVocabById db correct_id with
    | none => .error .typeError
    | some w =>
      let feedback := r"Wrong! Correct answer: " ++ w.hanzi
      .ok ({ s with quiz_feedback := some feedback }, feedback)

/-- quiz_next (src/app.py lines 472-499).  The increment of the cursor
comes first and raises KeyError when the key is missing. -/
def quiz_next (db : List Vocab) (level : Nat) (s : Session)
    (rand1 rand2 : List Nat) : Except PyError (Session × QOutcome) :=
  match s.quiz_current with
  | none => .error .keyError
  | some c0 =>
    let s1 := { s with quiz_current := some (c0 + 1) }
    let words := s1.quiz_words.getD []
    if h : words.length ≤ c0 + 1 then .ok (s1, .redirectResult)
    else
      let question_id := words.get ⟨c0 + 1, by omega⟩
      let question := selectVocabById db question_id
      match randSample rand1 ((vocabByLevel db level).filter (fun v => v.id != question_id)) 3 with
      | none => .error .valueError
      | some ds =>
        .ok (s1, .page question (randShuffle rand2 (ds.map some ++ [question]))
          (c0 + 1) words.length)

/-- quiz_result (src/app.py lines 506-518): report (total, correct) and pop
every quiz key from the session. -/
def quiz_result (s : Session) : (Nat × Nat) × Session :=
  ((s.quiz_total.getD 0, s.quiz_correct.getD 0),
   { s with quiz_words := none, quiz_current := none, quiz_correct := none,
            quiz_feedback := none, quiz_total := none, quiz_level := none })

/-- A row of the progress table (the autoincrement id column is not
relevant to any claim and is omitted). -/
structure ProgressRecord where
  user_id : Nat
  vocab_id : Nat
  learned : Nat
deriving DecidableEq

/-- The POST branch of flashcards (src/app.py lines 279-296) restricted to
its effect on the progress table.  The Python guard is the truthiness of
user_id (an int, falsy only at 0) and of the submitted vocab_id. -/
def flashcards_mark (user_id : Option Nat) (vocab_id : Option Nat)
    (progress : List ProgressRecord) : List ProgressRecord :=
  match user_id, vocab_id with
  | some u, some v =>
    if u ≠ 0 then
      if progress.any (fun p => p.user_id == u && p.vocab_id == v) then progress
      else progress ++ [⟨u, v, 1⟩]
    else progress
  | _, _ => progress

/-- ORDER BY id ASC followed by fetchone: the row of least id. -/
def minIdRow (rows : List Vocab) : Option Vocab :=
  rows.foldl (fun acc v =>
    match acc with
    | none => some v
    | some w => if v.id < w.id then some v else some w) none

/-- ORDER BY id DESC followed by fetchone: the row of greatest id. -/
def maxIdRow (rows : List Vocab) : Option Vocab :=
  rows.foldl (fun acc v =>
    match acc with
    | none => some v
    | some w => if w.id < v.id then some v else some w) none

/-- The navigation part of flashcards (src/app.py lines 298-318): resolve
the current card from the optional next / prev anchors. -/
def flashcards_nav (db : List Vocab) (level : Nat)
    (next_anchor prev_anchor : Option Nat) : Option Vocab :=
  match next_anchor with
  | some a => minIdRow ((vocabByLevel db level).filter (fun v => a < v.id))
  | none =>
    match prev_anchor with
    | some a => maxIdRow ((vocabByLevel db level).filter (fun v => v.id < a))
    | none => minIdRow (vocabByLevel db level)

/-- Number of progress rows for one (user, vocab) pair. -/
def countRecords (u v : Nat) (progress : List ProgressRecord) : Nat :=
  (progress.filter (fun p => p.user_id == u && p.vocab_id == v)).length

/-! Concrete fixtures used by witnesses and counterexamples. -/

/-- A vocabulary row with a numeric script form, for concrete examples. -/
def mkRow (i lvl : Nat) : Vocab := ⟨i, toString i, r"", r"", lvl⟩

/-- A 12-item tier-1 vocabulary table (the spec scenario for quiz sizing). -/
def db12 : List Vocab := (List.range 12).map (fun i => mkRow (i + 1) 1)

/-- A 3-item tier-1 table: too small to supply 3 distractors. -/
def db3 : List Vocab := [mkRow 1 1, mkRow 2 1, mkRow 3 1]

/-- The session produced by quiz_start db12 1 5 [] emptySession. -/
def s15 : Session :=
  { quiz_words := some [1, 2, 3, 4, 5], quiz_current := some 0,
    quiz_correct := some 0, quiz_level := some 1, quiz_total := some 5 }

/-- s15 after one correct quiz_submit. -/
def s15c : Session :=
  { s15 with quiz_correct := some 1, quiz_feedback := some r"Correct!" }

/-- An in-progress session over db3. -/
def sessB : Session :=
  { quiz_words := some [1, 2, 3], quiz_current := some 0,
    quiz_correct := some 0, quiz_level := some 1, quiz_total := some 3 }

/-! Helper lemmas. -/

theorem randSample_none {α : Type} (k : Nat) :
    ∀ (rand : List Nat) (pool : List α), pool.length < k →
      randSample rand pool k = none := by
  induction k with
  | zero => intro _ _ h; exact absurd h (by omega)
  | succ k ih =>
    intro rand pool h
    unfold randSample
    by_cases hp : pool.length = 0
    · rw [if_pos hp]
    · rw [if_neg hp]
      have hi : rand.headD 0 % pool.length < pool.length := Nat.mod_lt _ (by omega)
      rw [List.getElem?_eq_getElem hi]
      have hlt : (pool.eraseIdx (rand.headD 0 % pool.length)).length < k := by
        rw [List.length_eraseIdx, if_pos hi]; omega
      rw [ih _ _ hlt]
      rfl

theorem eq_singleton_of_length_le_one {α : Type} {l : List α} {a : α}
    (h : l.length ≤ 1) (ha : a ∈ l) : l = [a] := by
  match l, h with
  | [x], _ => simp_all

/-- With unique ids, the fetchone of SELECT by id returns the unique row. -/
theorem selectVocabById_eq {db : List Vocab} {v0 : Vocab}
    (hnodup : (db.map (fun v => v.id)).Nodup) (hmem : v0 ∈ db) :
    selectVocabById db v0.id = some v0 := by
  unfold selectVocabById
  have hm : v0 ∈ db.filter (fun v => v.id == v0.id) := by
    rw [List.mem_filter]
    exact ⟨hmem, by simp⟩
  have hlen : (db.filter (fun v => v.id == v0.id)).length ≤ 1 := by
    rw [← List.countP_eq_length_filter]
    have : List.countP (fun v => v.id == v0.id) db =
        List.count v0.id (db.map (fun v => v.id)) := by
      rw [List.count, List.countP_map]
      rfl
    rw [this]
    exact List.nodup_iff_count_le_one.mp hnodup v0.id
  rw [eq_singleton_of_length_le_one hlen hm]
  rfl

/-- With unique ids, at most one row of the tier carries a given id, so the
distractor pool loses at most one row to the target exclusion. -/
theorem filter_ne_id_length (db : List Vocab) (level : Nat) (i : Nat)
    (hnodup : (db.map (fun v => v.id)).Nodup) :
    (vocabByLevel db level).length ≤
      ((vocabByLevel db level).filter (fun v => v.id != i)).length + 1 := by
  have hnd : ((vocabByLevel db level).map (fun v => v.id)).Nodup := by
    have hsb : List.Sublist (vocabByLevel db level) db := List.filter_sublist db
    exact (hsb.map (fun v => v.id)).nodup hnodup
  have hcount : List.countP (fun v => !(v.id != i)) (vocabByLevel db level) ≤ 1 := by
    have h1 : List.countP (fun v => !(v.id != i)) (vocabByLevel db level) =
        List.countP (fun v => v.id == i) (vocabByLevel db level) := by
      apply List.countP_congr
      intro v _
      simp [bne]
    rw [h1]
    have h2 : List.countP (fun v => v.id == i) (vocabByLevel db level) =
        List.count i ((vocabByLevel db level).map (fun v => v.id)) := by
      rw [List.count, List.countP_map]
      rfl
    rw [h2]
    exact List.nodup_iff_count_le_one.mp hnd i
  have := List.length_eq_countP_add_countP (fun v => v.id != i) (vocabByLevel db level)
  rw [List.countP_eq_length_filter] at this
  have hco : List.countP (fun a => decide ¬(a.id != i) = true) (vocabByLevel db level) =
      List.countP (fun v => !(v.id != i)) (vocabByLevel db level) := by
    apply List.countP_congr
    intro v _
    cases h : (v.id != i) <;> simp [h]
  omega

theorem minIdRow_fold (rows : List Vocab) :
    ∀ w : Vocab, ∃ r, rows.foldl (fun acc v =>
        match acc with
        | none => some v
        | some w => if v.id < w.id then some v else some w) (some w) = some r
      ∧ (r = w ∨ r ∈ rows) ∧ r.id ≤ w.id ∧ ∀ v ∈ rows, r.id ≤ v.id := by
  induction rows with
  | nil => intro w; exact ⟨w, rfl, Or.inl rfl, Nat.le_refl _, by simp⟩
  | cons v rest ih =>
    intro w
    by_cases h : v.id < w.id
    · obtain ⟨r, hr, hmem, hle, hall⟩ := ih v
      refine ⟨r, ?_, ?_, ?_, ?_⟩
      · simpa [h] using hr
      · rcases hmem with rfl | hm
        · exact Or.inr (List.mem_cons_self _ _)
        · exact Or.inr (List.mem_cons_of_mem _ hm)
      · omega
      · intro u hu
        rcases List.mem_cons.mp hu with rfl | hm
        · exact hle
        · exact hall u hm
    · obtain ⟨r, hr, hmem, hle, hall⟩ := ih w
      refine ⟨r, ?_, ?_, hle, ?_⟩
      · simpa [h] using hr
      · rcases hmem with rfl | hm
        · exact Or.inl rfl
        · exact Or.inr (List.mem_cons_of_mem _ hm)
      · intro u hu
        rcases List.mem_cons.mp hu with rfl | hm
        · omega
        · exact hall u hm

theorem minIdRow_eq_none_iff (rows : List Vocab) :
    minIdRow rows = none ↔ rows = [] := by
  cases rows with
  | nil => simp [minIdRow]
  | cons v rest =>
    simp only [minIdRow, List.foldl_cons]
    obtain ⟨r, hr, -, -, -⟩ := minIdRow_fold rest v
    simp [hr]

theorem minIdRow_spec (rows : List Vocab) (r : Vocab)
    (h : minIdRow rows = some r) : r ∈ rows ∧ ∀ v ∈ rows, r.id ≤ v.id := by
  cases rows with
  | nil => simp [minIdRow] at h
  | cons v rest =>
    simp only [minIdRow, List.foldl_cons] at h
    obtain ⟨r2, hr2, hmem, hle, hall⟩ := minIdRow_fold rest v
    rw [hr2] at h
    cases h
    refine ⟨?_, ?_⟩
    · rcases hmem with rfl | hm
      · exact List.mem_cons_self _ _
      · exact List.mem_cons_of_mem _ hm
    · intro u hu
      rcases List.mem_cons.mp hu with rfl | hm
      · exact hle
      · exact hall u hm

theorem maxIdRow_fold (rows : List Vocab) :
    ∀ w : Vocab, ∃ r, rows.foldl (fun acc v =>
        match acc with
        | none => some v
        | some w => if w.id < v.id then some v else some w) (some w) = some r
      ∧ (r = w ∨ r ∈ rows) ∧ w.id ≤ r.id ∧ ∀ v ∈ rows, v.id ≤ r.id := by
  induction rows with
  | nil => intro w; exact ⟨w, rfl, Or.inl rfl, Nat.le_refl _, by simp⟩
  | cons v rest ih =>
    intro w
    by_cases h : w.id < v.id
    · obtain ⟨r, hr, hmem, hle, hall⟩ := ih v
      refine ⟨r, ?_, ?_, ?_, ?_⟩
      · simpa [h] using hr
      · rcases hmem with rfl | hm
        · exact Or.inr (List.mem_cons_self _ _)
        · exact Or.inr (List.mem_cons_of_mem _ hm)
      · omega
      · intro u hu
        rcases List.mem_cons.mp hu with rfl | hm
        · exact hle
        · exact hall u hm
    · obtain ⟨r, hr, hmem, hle, hall⟩ := ih w
      refine ⟨r, ?_, ?_, hle, ?_⟩
      · simpa [h] using hr
      · rcases hmem with rfl | hm
        · exact Or.inl rfl
        · exact Or.inr (List.mem_cons_of_mem _ hm)
      · intro u hu
        rcases List.mem_cons.mp hu with rfl | hm
        · omega
        · exact hall u hm

theorem maxIdRow_eq_none_iff (rows : List Vocab) :
    maxIdRow rows = none ↔ rows = [] := by
  cases rows with
  | nil => simp [maxIdRow]
  | cons v rest =>
    simp only [maxIdRow, List.foldl_cons]
    obtain ⟨r, hr, -, -, -⟩ := maxIdRow_fold rest v
    simp [hr]

theorem maxIdRow_spec (rows : List Vocab) (r : Vocab)
    (h : maxIdRow rows = some r) : r ∈ rows ∧ ∀ v ∈ rows, v.id ≤ r.id := by
  cases rows with
  | nil => simp [maxIdRow] at h
  | cons v rest =>
    simp only [maxIdRow, List.foldl_cons] at h
    obtain ⟨r2, hr2, hmem, hle, hall⟩ := maxIdRow_fold rest v
    rw [hr2] at h
    cases h
    refine ⟨?_, ?_⟩
    · rcases hmem with rfl | hm
      · exact List.mem_cons_self _ _
      · exact List.mem_cons_of_mem _ hm
    · intro u hu
      rcases List.mem_cons.mp hu with rfl | hm
      · exact hle
      · exact hall u hm

theorem mem_vocabByLevel {db : List Vocab} {level : Nat} {v : Vocab} :
    v ∈ vocabByLevel db level ↔ v ∈ db ∧ v.hsk_level = level := by
  rw [vocabByLevel, List.mem_filter]
  simp

/-! Claim theorems. -/

/-- C4: for every SubmitAnswer in an in-progress quiz, equality of the
chosen and correct identifiers increments the correct counter by exactly
one and produces the correct feedback; otherwise the counter is unchanged
(never decremented) and the feedback names the correct item script form;
in both cases the cursor is not advanced (the session update touches only
quiz_correct and quiz_feedback, so quiz_current is preserved). -/
theorem quiz_submit_spec (db : List Vocab) (answer_id correct_id : Nat)
    (s : Session) (c : Nat) (hc : s.quiz_correct = some c) :
    (answer_id = correct_id →
      quiz_submit db answer_id correct_id s =
        .ok ({ s with quiz_correct := some (c + 1), quiz_feedback := some r"Correct!" },
          r"Correct!"))
    ∧ (answer_id ≠ correct_id → ∀ w, selectVocabById db correct_id = some w →
      quiz_submit db answer_id correct_id s =
        .ok ({ s with quiz_feedback := some (r"Wrong! Correct answer: " ++ w.hanzi) },
          r"Wrong! Correct answer: " ++ w.hanzi)) := by
  constructor
  · intro h
    simp [quiz_submit, h, hc]
  · intro h w hw
    simp [quiz_submit, h, hw]

theorem quiz_submit_spec_witness :
    quiz_submit db12 1 1 s15 =
      .ok ({ s15 with quiz_correct := some 1, quiz_feedback := some r"Correct!" },
        r"Correct!")
    ∧ quiz_submit db12 2 1 s15 =
      .ok ({ s15 with quiz_feedback := some (r"Wrong! Correct answer: " ++ (mkRow 1 1).hanzi) },
        r"Wrong! Correct answer: " ++ (mkRow 1 1).hanzi) :=
  ⟨(quiz_submit_spec db12 1 1 s15 0 rfl).1 rfl,
   (quiz_submit_spec db12 2 1 s15 0 rfl).2 (by decide) (mkRow 1 1) (by decide)⟩

/-- C10: with no quiz session in place (all quiz keys absent), Advance
raises an unhandled KeyError incrementing the missing cursor, SubmitAnswer
raises an unhandled KeyError whenever the chosen answer equals the correct
identifier, and neither redirects to the quiz-start flow the way
CurrentQuestion does for a missing session. -/
theorem missing_session_behavior (db : List Vocab) (level : Nat)
    (rand1 rand2 : List Nat) (s : Session)
    (hw : s.quiz_words = none) (hcur : s.quiz_current = none)
    (hcor : s.quiz_correct = none) :
    quiz_next db level s rand1 rand2 = .error .keyError
    ∧ (∀ a : Nat, quiz_submit db a a s = .error .keyError)
    ∧ quiz_question db level s rand1 rand2 = .ok .redirectStart := by
  refine ⟨?_, ?_, ?_⟩
  · simp [quiz_next, hcur]
  · intro a
    simp [quiz_submit, hcor]
  · simp [quiz_question, hw]

theorem missing_session_behavior_witness :
    quiz_next db12 1 emptySession [] [] = .error .keyError
    ∧ quiz_submit db12 7 7 emptySession = .error .keyError
    ∧ quiz_question db12 1 emptySession [] [] = .ok .redirectStart := by
  obtain ⟨h1, h2, h3⟩ := missing_session_behavior db12 1 [] [] emptySession rfl rfl rfl
  exact ⟨h1, h2 7, h3⟩

/-- The count of progress rows for a pair after one mark: a first mark
appends exactly one row, a duplicate mark is silently ignored. -/
theorem flashcards_mark_count (u v : Nat) (progress : List ProgressRecord)
    (hu : u ≠ 0) :
    countRecords u v (flashcards_mark (some u) (some v) progress) =
      if countRecords u v progress = 0 then 1 else countRecords u v progress := by
  have hred : flashcards_mark (some u) (some v) progress =
      if u ≠ 0 then
        if progress.any (fun p => p.user_id == u && p.vocab_id == v) then progress
        else progress ++ [⟨u, v, 1⟩]
      else progress := rfl
  rw [hred, if_pos hu]
  by_cases hany : progress.any (fun p => p.user_id == u && p.vocab_id == v)
  · rw [if_pos hany]
    have : countRecords u v progress ≠ 0 := by
      rw [List.any_eq_true] at hany
      obtain ⟨p, hp, hpred⟩ := hany
      have : p ∈ progress.filter (fun p => p.user_id == u && p.vocab_id == v) :=
        List.mem_filter.mpr ⟨hp, hpred⟩
      unfold countRecords
      have := List.length_pos.mpr (List.ne_nil_of_mem this)
      omega
    rw [if_neg this]
  · rw [if_neg hany]
    have h0 : countRecords u v progress = 0 := by
      unfold countRecords
      rw [List.any_eq_true] at hany
      push_neg at hany
      have : progress.filter (fun p => p.user_id == u && p.vocab_id == v) = [] := by
        rw [List.filter_eq_nil_iff]
        intro p hp
        simp only [Bool.not_eq_true]
        cases h : (p.user_id == u && p.vocab_id == v)
        · rfl
        · exact absurd h (by simpa using hany p hp)
      rw [this]
      rfl
    rw [if_pos h0]
    unfold countRecords at h0 ⊢
    rw [List.filter_append, List.length_append, h0]
    simp

/-- C9: marking a vocabulary item learned is idempotent: for an
authenticated user (a nonzero user id) and a supplied vocabulary
identifier, marking the same pair twice leaves exactly one ProgressRecord
for the pair, and the at-most-one-record invariant is preserved by each
mark.  The duplicate mark returns the table unchanged instead of erroring. -/
theorem flashcards_mark_idempotent (u v : Nat) (progress : List ProgressRecord)
    (hu : u ≠ 0) (hinv : countRecords u v progress ≤ 1) :
    countRecords u v
        (flashcards_mark (some u) (some v)
          (flashcards_mark (some u) (some v) progress)) = 1
    ∧ countRecords u v (flashcards_mark (some u) (some v) progress) ≤ 1 := by
  have h1 := flashcards_mark_count u v progress hu
  have h2 := flashcards_mark_count u v (flashcards_mark (some u) (some v) progress) hu
  by_cases h0 : countRecords u v progress = 0
  · rw [if_pos h0] at h1
    rw [h1] at h2 ⊢
    rw [if_neg (by omega)] at h2
    exact ⟨by omega, by omega⟩
  · rw [if_neg h0] at h1
    have hone : countRecords u v progress = 1 := by omega
    rw [h1, hone] at h2 ⊢
    rw [if_neg (by omega)] at h2
    exact ⟨by omega, by omega⟩

theorem flashcards_mark_idempotent_witness :
    countRecords 42 7 (flashcards_mark (some 42) (some 7)
      (flashcards_mark (some 42) (some 7) [])) = 1
    ∧ countRecords 42 7 (flashcards_mark (some 42) (some 7) []) ≤ 1 :=
  flashcards_mark_idempotent 42 7 [] (by decide) (by decide)

/-- C8: flashcard navigation.  With a next cursor the handler returns the
row of the tier with the smallest identifier strictly greater than the
cursor and returns empty exactly when no such row exists; with a prev
cursor (and no next cursor) the row with the largest identifier strictly
below the cursor, empty exactly when none exists; with no cursor the row
with the smallest identifier of the tier, empty exactly when the tier is
empty. -/
theorem flashcards_nav_spec (db : List Vocab) (level : Nat) :
    (∀ a prev r, flashcards_nav db level (some a) prev = some r →
      r ∈ db ∧ r.hsk_level = level ∧ a < r.id ∧
        ∀ v ∈ db, v.hsk_level = level → a < v.id → r.id ≤ v.id)
    ∧ (∀ a prev, flashcards_nav db level (some a) prev = none ↔
        ∀ v ∈ db, v.hsk_level = level → v.id ≤ a)
    ∧ (∀ a r, flashcards_nav db level none (some a) = some r →
      r ∈ db ∧ r.hsk_level = level ∧ r.id < a ∧
        ∀ v ∈ db, v.hsk_level = level → v.id < a → v.id ≤ r.id)
    ∧ (∀ a, flashcards_nav db level none (some a) = none ↔
        ∀ v ∈ db, v.hsk_level = level → a ≤ v.id)
    ∧ (∀ r, flashcards_nav db level none none = some r →
      r ∈ db ∧ r.hsk_level = level ∧ ∀ v ∈ db, v.hsk_level = level → r.id ≤ v.id)
    ∧ (flashcards_nav db level none none = none ↔
        ∀ v ∈ db, v.hsk_level ≠ level) := by
  refine ⟨?_, ?_, ?_, ?_, ?_, ?_⟩
  · intro a prev r h
    have hspec := minIdRow_spec _ _ h
    obtain ⟨hmem, hall⟩ := hspec
    rw [List.mem_filter] at hmem
    obtain ⟨hmem2, hgt⟩ := hmem
    rw [mem_vocabByLevel] at hmem2
    refine ⟨hmem2.1, hmem2.2, by simpa using hgt, ?_⟩
    intro v hv hlvl hida
    exact hall v (List.mem_filter.mpr ⟨mem_vocabByLevel.mpr ⟨hv, hlvl⟩, by simpa using hida⟩)
  · intro a prev
    show minIdRow _ = none ↔ _
    rw [minIdRow_eq_none_iff, List.eq_nil_iff_forall_not_mem]
    constructor
    · intro h v hv hlvl
      by_contra hlt
      exact h v (List.mem_filter.mpr ⟨mem_vocabByLevel.mpr ⟨hv, hlvl⟩, by simp; omega⟩)
    · intro h v hv
      rw [List.mem_filter] at hv
      obtain ⟨hm, hgt⟩ := hv
      rw [mem_vocabByLevel] at hm
      have := h v hm.1 hm.2
      simp at hgt
      omega
  · intro a r h
    have hspec := maxIdRow_spec _ _ h
    obtain ⟨hmem, hall⟩ := hspec
    rw [List.mem_filter] at hmem
    obtain ⟨hmem2, hlt⟩ := hmem
    rw [mem_vocabByLevel] at hmem2
    refine ⟨hmem2.1, hmem2.2, by simpa using hlt, ?_⟩
    intro v hv hlvl hida
    exact hall v (List.mem_filter.mpr ⟨mem_vocabByLevel.mpr ⟨hv, hlvl⟩, by simpa using hida⟩)
  · intro a
    show maxIdRow _ = none ↔ _
    rw [maxIdRow_eq_none_iff, List.eq_nil_iff_forall_not_mem]
    constructor
    · intro h v hv hlvl
      by_contra hlt
      exact h v (List.mem_filter.mpr ⟨mem_vocabByLevel.mpr ⟨hv, hlvl⟩, by simp; omega⟩)
    · intro h v hv
      rw [List.mem_filter] at hv
      obtain ⟨hm, hlt⟩ := hv
      rw [mem_vocabByLevel] at hm
      have := h v hm.1 hm.2
      simp at hlt
      omega
  · intro r h
    have hspec := minIdRow_spec _ _ h
    obtain ⟨hmem, hall⟩ := hspec
    rw [mem_vocabByLevel] at hmem
    refine ⟨hmem.1, hmem.2, ?_⟩
    intro v hv hlvl
    exact hall v (mem_vocabByLevel.mpr ⟨hv, hlvl⟩)
  · show minIdRow _ = none ↔ _
    rw [minIdRow_eq_none_iff, List.eq_nil_iff_forall_not_mem]
    constructor
    · intro h v hv hlvl
      exact h v (mem_vocabByLevel.mpr ⟨hv, hlvl⟩)
    · intro h v hv
      rw [mem_vocabByLevel] at hv
      exact h v hv.1 hv.2

theorem flashcards_nav_spec_witness :
    flashcards_nav db12 1 (some 3) none = some (mkRow 4 1)
    ∧ mkRow 4 1 ∈ db12 ∧ (mkRow 4 1).hsk_level = 1 ∧ 3 < (mkRow 4 1).id := by
  have h := (flashcards_nav_spec db12 1).1 3 none (mkRow 4 1) (by decide)
  exact ⟨by decide, h.1, h.2.1, h.2.2.1⟩

/-- Whether a quiz_start outcome is one of the two InvalidQuizSize error
pages (wrong multiple, or more questions than the pool holds). -/
def isInvalidQuizSize (r : Except PyError (Session × StartOutcome)) : Bool :=
  match r with
  | .ok (_, .errNotMultiple) => true
  | .ok (_, .errNotEnough _) => true
  | _ => false

/-- C1 (amended): quiz_start fails with an InvalidQuizSize error if and
only if the requested count is not a multiple of 5 (in the sign convention
of the Python modulus) or exceeds the number of items in the tier; the
too-many error reports the pool size as the maximum allowed; any
nonnegative multiple of 5 within the pool bound is accepted.  The claim
as frozen also demanded failure for counts that are not POSITIVE
multiples of 5, but the code accepts a requested count of 0. -/
theorem quiz_start_invalidSize_iff (db : List Vocab) (level : Nat)
    (num : Int) (rand : List Nat) (s : Session) :
    (isInvalidQuizSize (quiz_start db level num rand s) = true ↔
      (num % 5 ≠ 0 ∨ ((vocabByLevel db level).length : Int) < num))
    ∧ (∀ s2 m, quiz_start db level num rand s = .ok (s2, .errNotEnough m) →
        m = (vocabByLevel db level).length)
    ∧ (num % 5 = 0 → 0 ≤ num → num ≤ ((vocabByLevel db level).length : Int) →
        ∃ s2, quiz_start db level num rand s = .ok (s2, .redirectQuestion)) := by
  have hplen : ((vocabByLevel db level).map (fun v => v.id)).length =
      (vocabByLevel db level).length := List.length_map _ _
  refine ⟨?_, ?_, ?_⟩
  · unfold quiz_start
    by_cases h5 : num % 5 ≠ 0
    · rw [if_pos h5]
      simp [isInvalidQuizSize, h5]
    · rw [if_neg h5]
      push_neg at h5
      by_cases hbig : ((vocabByLevel db level).map (fun v => v.id)).length < num
      · rw [if_pos hbig]
        rw [hplen] at hbig
        simp [isInvalidQuizSize, h5, hbig]
      · rw [if_neg hbig]
        rw [hplen] at hbig
        push_neg at hbig
        by_cases hneg : num < 0
        · rw [if_pos hneg]
          simp only [isInvalidQuizSize]
          constructor
          · intro h
            exact absurd h (by simp)
          · intro h
            rcases h with h | h
            · exact absurd h5 h
            · omega
        · rw [if_neg hneg]
          cases hsamp : randSample rand ((vocabByLevel db level).map (fun v => v.id)) num.toNat with
          | none =>
            have : (num.toNat : Int) ≤ ((vocabByLevel db level).length : Int) := by omega
            have hle : num.toNat ≤ ((vocabByLevel db level).map (fun v => v.id)).length := by
              rw [hplen]; omega
            have := randSample_isSome num.toNat rand _ hle
            rw [hsamp] at this
            exact absurd this (by simp)
          | some ids =>
            simp only [isInvalidQuizSize]
            constructor
            · intro h
              exact absurd h (by simp)
            · intro h
              rcases h with h | h
              · exact absurd h5 h
              · omega
  · intro s2 m h
    simp only [quiz_start] at h
    by_cases h5 : num % 5 ≠ 0
    · rw [if_pos h5] at h
      exact absurd h (by simp)
    · rw [if_neg h5] at h
      by_cases hbig : (((vocabByLevel db level).map (fun v => v.id)).length : Int) < num
      · rw [if_pos hbig] at h
        rw [Except.ok.injEq, Prod.mk.injEq] at h
        obtain ⟨-, h2⟩ := h
        injection h2 with h2
        rw [← h2]
        exact hplen
      · rw [if_neg hbig] at h
        by_cases hneg : num < 0
        · rw [if_pos hneg] at h
          exact absurd h (by simp)
        · rw [if_neg hneg] at h
          cases hsamp : randSample rand ((vocabByLevel db level).map (fun v => v.id)) num.toNat with
          | none =>
            rw [hsamp] at h
            exact absurd h (by simp)
          | some ids =>
            rw [hsamp] at h
            rw [Except.ok.injEq, Prod.mk.injEq] at h
            exact absurd h.2 (by simp)
  · intro h5 hnn hle
    unfold quiz_start
    rw [if_neg (by omega)]
    rw [if_neg (by rw [hplen]; omega)]
    rw [if_neg (by omega)]
    have hle2 : num.toNat ≤ ((vocabByLevel db level).map (fun v => v.id)).length := by
      rw [hplen]
      omega
    obtain ⟨ids, hids⟩ := Option.isSome_iff_exists.mp (randSample_isSome num.toNat rand _ hle2)
    rw [hids]
    exact ⟨_, rfl⟩

theorem quiz_start_invalidSize_iff_witness :
    isInvalidQuizSize (quiz_start db12 1 15 [] emptySession) = true
    ∧ isInvalidQuizSize (quiz_start db12 1 7 [] emptySession) = true
    ∧ quiz_start db12 1 15 [] emptySession = .ok (emptySession, .errNotEnough 12)
    ∧ isInvalidQuizSize (quiz_start db12 1 10 [] emptySession) = false := by
  refine ⟨(quiz_start_invalidSize_iff db12 1 15 [] emptySession).1.mpr (by decide),
          (quiz_start_invalidSize_iff db12 1 7 [] emptySession).1.mpr (by decide),
          by rfl, by rfl⟩

/-- C1 counterexample: a requested count of 0 is not a positive multiple
of 5, yet quiz_start on the 12-item tier does not fail with an
InvalidQuizSize error: it succeeds, storing an empty word sequence. -/
theorem quiz_start_zero_accepted :
    quiz_start db12 1 0 [] emptySession =
      .ok ({ emptySession with quiz_words := some [], quiz_current := some 0,
                               quiz_correct := some 0, quiz_level := some 1,
                               quiz_total := some 0 },
        .redirectQuestion)
    ∧ isInvalidQuizSize (quiz_start db12 1 0 [] emptySession) = false
    ∧ ¬(0 < (0 : Int)) := by
  refine ⟨by rfl, by rfl, by decide⟩

theorem vocabByLevel_ids_nodup (db : List Vocab) (level : Nat)
    (hnodup : (db.map (fun v => v.id)).Nodup) :
    ((vocabByLevel db level).map (fun v => v.id)).Nodup := by
  have hsb : List.Sublist (vocabByLevel db level) db := List.filter_sublist db
  exact (hsb.map (fun v => v.id)).nodup hnodup

/-- C6: for a valid requested count (a positive multiple of 5 at most the
pool size of the tier) quiz_start succeeds and stores a word sequence of
exactly the requested length with no duplicate identifiers, every
identifier drawn from the tier, and sets the cursor and the
correct counter to 0. -/
theorem quiz_start_valid_spec (db : List Vocab) (level : Nat) (num : Int)
    (rand : List Nat) (s : Session)
    (hnodup : (db.map (fun v => v.id)).Nodup)
    (hpos : 0 < num) (hmul : num % 5 = 0)
    (hle : num ≤ ((vocabByLevel db level).length : Int)) :
    ∃ ids, quiz_start db level num rand s =
        .ok ({ s with quiz_words := some ids, quiz_current := some 0,
                      quiz_correct := some 0, quiz_level := some level,
                      quiz_total := some num.toNat }, .redirectQuestion)
      ∧ (ids.length : Int) = num ∧ ids.Nodup
      ∧ ∀ i ∈ ids, ∃ v, v ∈ db ∧ v.id = i ∧ v.hsk_level = level := by
  have hplen : ((vocabByLevel db level).map (fun v => v.id)).length =
      (vocabByLevel db level).length := List.length_map _ _
  unfold quiz_start
  rw [if_neg (by omega), if_neg (by rw [hplen]; omega), if_neg (by omega)]
  have hle2 : num.toNat ≤ ((vocabByLevel db level).map (fun v => v.id)).length := by
    rw [hplen]
    omega
  obtain ⟨ids, hids⟩ := Option.isSome_iff_exists.mp (randSample_isSome num.toNat rand _ hle2)
  rw [hids]
  refine ⟨ids, rfl, ?_, ?_, ?_⟩
  · have := randSample_length num.toNat rand _ ids hids
    omega
  · exact randSample_nodup (vocabByLevel_ids_nodup db level hnodup) hids
  · intro i hi
    have hmem := randSample_mem hids i hi
    rw [List.mem_map] at hmem
    obtain ⟨v, hv, hvi⟩ := hmem
    rw [mem_vocabByLevel] at hv
    exact ⟨v, hv.1, hvi, hv.2⟩

theorem quiz_start_valid_spec_witness :
    ∃ ids, quiz_start db12 1 5 [] emptySession =
        .ok ({ emptySession with quiz_words := some ids, quiz_current := some 0,
                                 quiz_correct := some 0, quiz_level := some 1,
                                 quiz_total := some (Int.toNat 5) },
          .redirectQuestion)
      ∧ (ids.length : Int) = 5 ∧ ids.Nodup
      ∧ ∀ i ∈ ids, ∃ v, v ∈ db12 ∧ v.id = i ∧ v.hsk_level = 1 :=
  quiz_start_valid_spec db12 1 5 [] emptySession (by decide) (by decide)
    (by decide) (by decide)

/-- C7 counterexample: on a 3-item tier the question handler does not
return any handled response carrying a declared InsufficientDistractors
error: random.sample raises an unhandled ValueError (there is no
defensive check in the code). -/
theorem quiz_question_small_tier_cex :
    (vocabByLevel db3 1).length = 3
    ∧ quiz_question db3 1 sessB [] [] = .error .valueError :=
  ⟨by rfl, by rfl⟩

/-- C7 (amended): if the tier of an in-progress quiz has fewer than 4
vocabulary items, CurrentQuestion fails, but by an unhandled ValueError
raised inside the distractor sampling; the code has no defensive check
and no declared InsufficientDistractors error value. -/
theorem quiz_question_insufficient_valueError (db : List Vocab) (level : Nat)
    (s : Session) (rand1 rand2 : List Nat) (ws : List Nat) (cur : Nat)
    (hw : s.quiz_words = some ws) (hcur : s.quiz_current = some cur)
    (hlt : cur < ws.length)
    (hsmall : (vocabByLevel db level).length < 4)
    (htgt : ∃ v ∈ vocabByLevel db level, v.id = ws.get ⟨cur, hlt⟩) :
    quiz_question db level s rand1 rand2 = .error .valueError := by
  obtain ⟨v0, hv0mem, hv0id⟩ := htgt
  have hne : ¬(ws.isEmpty = true) := by
    rw [List.isEmpty_iff]
    intro h
    rw [h] at hlt
    simp at hlt
  obtain ⟨qw, qc, qcor, qf, ql, qt⟩ := s
  simp only [] at hw hcur
  subst hw
  subst hcur
  unfold quiz_question
  simp only [Option.getD_some]
  rw [if_neg hne, dif_neg (show ¬(ws.length ≤ cur) by omega)]
  have hlen : ((vocabByLevel db level).filter
      (fun v => v.id != ws.get ⟨cur, hlt⟩)).length <
      (vocabByLevel db level).length := by
    rw [List.length_filter_lt_length_iff_exists]
    exact ⟨v0, hv0mem, by simp [hv0id]⟩
  have hnone := randSample_none 3 rand1
    ((vocabByLevel db level).filter (fun v => v.id != ws.get ⟨cur, hlt⟩))
    (by omega)
  rw [hnone]

theorem quiz_question_insufficient_valueError_witness :
    quiz_question db3 1 sessB [] [] = .error .valueError :=
  quiz_question_insufficient_valueError db3 1 sessB [] [] [1, 2, 3] 0 rfl rfl
    (by decide) (by decide) ⟨mkRow 1 1, by decide, by decide⟩

/-- C3: for every question of an in-progress quiz (the cursor inside the
word sequence, the target resolved in the tier of the quiz, unique ids,
and at least 4 rows in the tier), CurrentQuestion returns exactly 4
pairwise-distinct options, all from the requested tier, containing the
target exactly once, the other 3 being distinct distractors from the same
tier excluding the target, presented in an order produced by the shuffle. -/
theorem quiz_question_options_spec (db : List Vocab) (level : Nat)
    (s : Session) (rand1 rand2 : List Nat) (ws : List Nat) (cur : Nat)
    (v0 : Vocab)
    (hw : s.quiz_words = some ws) (hcur : s.quiz_current = some cur)
    (hlt : cur < ws.length)
    (hnodup : (db.map (fun v => v.id)).Nodup)
    (hv0 : v0 ∈ db) (hv0id : v0.id = ws.get ⟨cur, hlt⟩)
    (hv0lvl : v0.hsk_level = level)
    (htier : 4 ≤ (vocabByLevel db level).length) :
    ∃ opts, quiz_question db level s rand1 rand2 =
        .ok (.page (some v0) opts cur ws.length)
      ∧ opts.length = 4 ∧ opts.Nodup
      ∧ (opts.filter (fun o => o = some v0)).length = 1
      ∧ (∀ o ∈ opts, ∃ v, o = some v ∧ v ∈ db ∧ v.hsk_level = level)
      ∧ (∀ o ∈ opts, o ≠ some v0 → ∃ v, o = some v ∧ v ∈ db ∧ v.id ≠ v0.id) := by
  have hne : ¬(ws.isEmpty = true) := by
    rw [List.isEmpty_iff]
    intro h
    rw [h] at hlt
    simp at hlt
  obtain ⟨qw, qc, qcor, qf, ql, qt⟩ := s
  simp only [] at hw hcur
  subst hw
  subst hcur
  unfold quiz_question
  simp only [Option.getD_some]
  rw [if_neg hne, dif_neg (show ¬(ws.length ≤ cur) by omega)]
  have hsel : selectVocabById db (ws.get ⟨cur, hlt⟩) = some v0 := by
    rw [← hv0id]
    exact selectVocabById_eq hnodup hv0
  have hpool3 : 3 ≤ ((vocabByLevel db level).filter
      (fun v => v.id != ws.get ⟨cur, hlt⟩)).length := by
    have := filter_ne_id_length db level (ws.get ⟨cur, hlt⟩) hnodup
    omega
  obtain ⟨ds, hds⟩ := Option.isSome_iff_exists.mp (randSample_isSome 3 rand1
    ((vocabByLevel db level).filter (fun v => v.id != ws.get ⟨cur, hlt⟩)) hpool3)
  rw [hds, hsel]
  have hdlen : ds.length = 3 := randSample_length 3 rand1 _ ds hds
  have hdbnd : db.Nodup := List.Nodup.of_map _ hnodup
  have htiernd : (vocabByLevel db level).Nodup :=
    (List.filter_sublist db).nodup hdbnd
  have hpoolnd : ((vocabByLevel db level).filter
      (fun v => v.id != ws.get ⟨cur, hlt⟩)).Nodup :=
    (List.filter_sublist _).nodup htiernd
  have hdnd : ds.Nodup := randSample_nodup hpoolnd hds
  have hdmem : ∀ y ∈ ds, y ∈ db ∧ y.hsk_level = level ∧ y.id ≠ v0.id := by
    intro y hy
    have := randSample_mem hds y hy
    rw [List.mem_filter] at this
    obtain ⟨hmem, hid⟩ := this
    rw [mem_vocabByLevel] at hmem
    rw [bne_iff_ne] at hid
    exact ⟨hmem.1, hmem.2, by rw [hv0id]; exact hid⟩
  have hv0nin : v0 ∉ ds := by
    intro h
    exact absurd rfl (hdmem v0 h).2.2
  have hbase : (ds.map some ++ [some v0]).Perm (some v0 :: ds.map some) :=
    List.perm_append_singleton _ _
  have hshuf : (randShuffle rand2 (ds.map some ++ [some v0])).Perm
      (some v0 :: ds.map some) :=
    (randShuffle_perm rand2 _).trans hbase
  have hninmap : some v0 ∉ ds.map some := by
    intro h
    rw [List.mem_map] at h
    obtain ⟨y, hy, hsome⟩ := h
    have hyv : y = v0 := Option.some_injective _ hsome
    rw [hyv] at hy
    exact hv0nin hy
  refine ⟨randShuffle rand2 (ds.map some ++ [some v0]), rfl, ?_, ?_, ?_, ?_, ?_⟩
  · rw [hshuf.length_eq]
    simp [hdlen]
  · rw [hshuf.nodup_iff, List.nodup_cons]
    exact ⟨hninmap, hdnd.map (Option.some_injective _)⟩
  · rw [← List.countP_eq_length_filter, hshuf.countP_eq, List.countP_cons]
    have h0 : List.countP (fun o => decide (o = some v0)) (List.map some ds) = 0 := by
      rw [List.countP_eq_zero]
      intro a ha
      rw [List.mem_map] at ha
      obtain ⟨y, hy, rfl⟩ := ha
      simp only [decide_eq_true_eq, Option.some.injEq]
      intro hyv
      rw [hyv] at hy
      exact hv0nin hy
    rw [h0]
    simp
  · intro o ho
    rw [hshuf.mem_iff, List.mem_cons] at ho
    rcases ho with rfl | ho
    · exact ⟨v0, rfl, hv0, hv0lvl⟩
    · rw [List.mem_map] at ho
      obtain ⟨y, hy, rfl⟩ := ho
      exact ⟨y, rfl, (hdmem y hy).1, (hdmem y hy).2.1⟩
  · intro o ho hne0
    rw [hshuf.mem_iff, List.mem_cons] at ho
    rcases ho with rfl | ho
    · exact absurd rfl hne0
    · rw [List.mem_map] at ho
      obtain ⟨y, hy, rfl⟩ := ho
      exact ⟨y, rfl, (hdmem y hy).1, (hdmem y hy).2.2⟩

theorem quiz_question_options_spec_witness :
    ∃ opts, quiz_question db12 1 s15 [] [] =
        .ok (.page (some (mkRow 1 1)) opts 0 5)
      ∧ opts.length = 4 ∧ opts.Nodup
      ∧ (opts.filter (fun o => o = some (mkRow 1 1))).length = 1
      ∧ (∀ o ∈ opts, ∃ v, o = some v ∧ v ∈ db12 ∧ v.hsk_level = 1)
      ∧ (∀ o ∈ opts, o ≠ some (mkRow 1 1) →
          ∃ v, o = some v ∧ v ∈ db12 ∧ v.id ≠ (mkRow 1 1).id) :=
  quiz_question_options_spec db12 1 s15 [] [] [1, 2, 3, 4, 5] 0 (mkRow 1 1)
    rfl rfl (by decide) (by decide) (by decide) (by decide) (by decide) (by decide)

/-- The session with its cursor set to n (the state after n advances from
a fresh session, all other keys untouched by quiz_next). -/
def setCursor (s : Session) (n : Nat) : Session := { s with quiz_current := some n }

/-- C5: on a fresh session of total questions, each Advance increments the
cursor by exactly 1 and succeeds; the total-th Advance redirects to the
result (the session is completed); Result then reports the stored
(total, correct) pair and pops every quiz key, leaving the session in the
NOT_STARTED shape ready for a fresh Start. -/
theorem quiz_advance_result_spec (db : List Vocab) (level : Nat) (s : Session)
    (rand1 rand2 : List Nat) (ws : List Nat) (total k : Nat)
    (hw : s.quiz_words = some ws) (hlen : ws.length = total)
    (hcur : s.quiz_current = some 0)
    (hcor : s.quiz_correct = some k) (htot : s.quiz_total = some total)
    (hpos : 0 < total)
    (hnodup : (db.map (fun v => v.id)).Nodup)
    (htier : 4 ≤ (vocabByLevel db level).length) :
    setCursor s 0 = s
    ∧ (∀ n, n < total → ∃ out, quiz_next db level (setCursor s n) rand1 rand2 =
        .ok (setCursor s (n + 1), out))
    ∧ quiz_next db level (setCursor s (total - 1)) rand1 rand2 =
        .ok (setCursor s total, .redirectResult)
    ∧ quiz_result (setCursor s total) =
        ((total, k), { s with quiz_words := none, quiz_current := none,
                              quiz_correct := none, quiz_feedback := none,
                              quiz_total := none, quiz_level := none }) := by
  obtain ⟨qw, qc, qcor, qf, ql, qt⟩ := s
  simp only [] at hw hcur hcor htot
  subst hw
  subst hcur
  subst hcor
  subst htot
  have hstep : ∀ n, n < total → ∃ out,
      quiz_next db level (setCursor ⟨some ws, some 0, some k, qf, ql, some total⟩ n)
        rand1 rand2 =
      .ok (setCursor ⟨some ws, some 0, some k, qf, ql, some total⟩ (n + 1), out) := by
    intro n hn
    unfold quiz_next setCursor
    simp only [Option.getD_some]
    by_cases hc : ws.length ≤ n + 1
    · rw [dif_pos hc]
      exact ⟨.redirectResult, rfl⟩
    · rw [dif_neg hc]
      have hpool3 : 3 ≤ ((vocabByLevel db level).filter
          (fun v => v.id != ws.get ⟨n + 1, by omega⟩)).length := by
        have := filter_ne_id_length db level (ws.get ⟨n + 1, by omega⟩) hnodup
        omega
      obtain ⟨ds, hds⟩ := Option.isSome_iff_exists.mp (randSample_isSome 3 rand1 _ hpool3)
      rw [hds]
      exact ⟨_, rfl⟩
  refine ⟨rfl, hstep, ?_, ?_⟩
  · obtain ⟨out, hout⟩ := hstep (total - 1) (by omega)
    have hts : total - 1 + 1 = total := by omega
    rw [hts] at hout
    have hred : out = .redirectResult := by
      unfold quiz_next setCursor at hout
      simp only [Option.getD_some] at hout
      rw [dif_pos (by omega : ws.length ≤ total - 1 + 1)] at hout
      rw [Except.ok.injEq, Prod.mk.injEq] at hout
      exact hout.2.symm
    rw [hred] at hout
    exact hout
  · unfold quiz_result setCursor
    simp only [Option.getD_some]

theorem quiz_advance_result_spec_witness :
    quiz_next db12 1 (setCursor s15 4) [] [] =
      .ok (setCursor s15 5, .redirectResult)
    ∧ quiz_result (setCursor s15 5) =
      ((5, 0), { s15 with quiz_words := none, quiz_current := none,
                          quiz_correct := none, quiz_feedback := none,
                          quiz_total := none, quiz_level := none }) := by
  have h := quiz_advance_result_spec db12 1 s15 [] [] [1, 2, 3, 4, 5] 5 0
    rfl rfl rfl rfl rfl (by decide) (by decide) (by decide)
  exact ⟨h.2.2.1, h.2.2.2⟩

/-- Phases of the quiz state machine of the spec: a question shown or
pending (IN_PROGRESS), feedback shown and the advance pending
(AWAITING_NEXT), and the cursor at the end of the sequence (COMPLETED). -/
inductive QuizPhase where
  | inProgress
  | awaitingNext
  | completed
deriving DecidableEq

/-- Session states reachable by the handlers along the disciplined quiz
flow of the spec: Start, then per question CurrentQuestion, SubmitAnswer
and Advance, until Advance reports completion.  Every transition is the
successful run of the corresponding handler. -/
inductive QuizReach (db : List Vocab) (level : Nat) : Session → QuizPhase → Prop where
  | start (num : Int) (rand : List Nat) (s s1 : Session)
      (h : quiz_start db level num rand s = .ok (s1, .redirectQuestion)) :
      QuizReach db level s1 .inProgress
  | submit (s s1 : Session) (rand1 rand2 : List Nat) (q : Option Vocab)
      (opts : List (Option Vocab)) (cur tot a c : Nat) (fb : String)
      (hr : QuizReach db level s .inProgress)
      (hq : quiz_question db level s rand1 rand2 = .ok (.page q opts cur tot))
      (hs : quiz_submit db a c s = .ok (s1, fb)) :
      QuizReach db level s1 .awaitingNext
  | advance (s s1 : Session) (rand1 rand2 : List Nat) (out : QOutcome)
      (hr : QuizReach db level s .awaitingNext)
      (hn : quiz_next db level s rand1 rand2 = .ok (s1, out))
      (hout : out ≠ .redirectResult) :
      QuizReach db level s1 .inProgress
  | advanceEnd (s s1 : Session) (rand1 rand2 : List Nat)
      (hr : QuizReach db level s .awaitingNext)
      (hn : quiz_next db level s rand1 rand2 = .ok (s1, .redirectResult)) :
      QuizReach db level s1 .completed

/-- The counter invariant that actually holds along the quiz flow: the
session always carries its three counters, the correct count never
exceeds cursor + 1, the cursor never exceeds the question count, and
outside the post-answer feedback phase the correct count is bounded by
the cursor itself. -/
def QuizInv (s : Session) (ph : QuizPhase) : Prop :=
  ∃ ws cur cor, s.quiz_words = some ws ∧ s.quiz_current = some cur ∧
    s.quiz_correct = some cor ∧
    (match ph with
     | .inProgress => cor ≤ cur ∧ cur ≤ ws.length
     | .awaitingNext => cor ≤ cur + 1 ∧ cur < ws.length
     | .completed => cor ≤ cur ∧ cur ≤ ws.length)

/-- C2 (amended): along every disciplined quiz flow the session keeps
0 <= correct_count <= current_position + 1 and current_position <= total
question count at every point, and 0 <= correct_count <= current_position
at every point outside the post-answer feedback phase (in particular
after every Advance and at completion).  The frozen bound
correct_count <= current_position also after SubmitAnswer does not hold:
a correct submission raises the counter above the not-yet-advanced
cursor. -/
theorem quizReach_invariant (db : List Vocab) (level : Nat) (s : Session)
    (ph : QuizPhase) (h : QuizReach db level s ph) : QuizInv s ph := by
  induction h with
  | start num rand s0 s1 h =>
    simp only [quiz_start] at h
    by_cases h5 : num % 5 ≠ 0
    · rw [if_pos h5] at h
      rw [Except.ok.injEq, Prod.mk.injEq] at h
      exact absurd h.2 (by simp)
    · rw [if_neg h5] at h
      by_cases hbig : (((vocabByLevel db level).map (fun v => v.id)).length : Int) < num
      · rw [if_pos hbig] at h
        rw [Except.ok.injEq, Prod.mk.injEq] at h
        exact absurd h.2 (by simp)
      · rw [if_neg hbig] at h
        by_cases hneg : num < 0
        · rw [if_pos hneg] at h
          exact absurd h (by simp)
        · rw [if_neg hneg] at h
          cases hsamp : randSample rand ((vocabByLevel db level).map (fun v => v.id))
              num.toNat with
          | none =>
            rw [hsamp] at h
            exact absurd h (by simp)
          | some ids =>
            rw [hsamp] at h
            rw [Except.ok.injEq, Prod.mk.injEq] at h
            obtain ⟨hs1, -⟩ := h
            exact ⟨ids, 0, 0, by rw [← hs1], by rw [← hs1], by rw [← hs1],
              Nat.zero_le _, Nat.zero_le _⟩
  | submit s0 s1 rand1 rand2 q opts cur0 tot a c fb hr hq hs ih =>
    obtain ⟨ws, cur, cor, hw, hc, hcor, hin⟩ := ih
    simp only [quiz_question, hw, hc, Option.getD_some] at hq
    by_cases hemp : ws.isEmpty
    · rw [if_pos hemp] at hq
      exact absurd hq (by simp)
    · rw [if_neg hemp] at hq
      by_cases hle : ws.length ≤ cur
      · rw [dif_pos hle] at hq
        exact absurd hq (by simp)
      · rw [dif_neg hle] at hq
        simp only [quiz_submit] at hs
        by_cases hac : a = c
        · rw [if_pos hac] at hs
          simp only [hcor] at hs
          rw [Except.ok.injEq, Prod.mk.injEq] at hs
          obtain ⟨hs1, -⟩ := hs
          refine ⟨ws, cur, cor + 1, ?_, ?_, ?_, ?_, ?_⟩
          · rw [← hs1]; exact hw
          · rw [← hs1]; exact hc
          · rw [← hs1]
          · omega
          · omega
        · rw [if_neg hac] at hs
          cases hsel : selectVocabById db c with
          | none =>
            rw [hsel] at hs
            exact absurd hs (by simp)
          | some w =>
            simp only [hsel] at hs
            rw [Except.ok.injEq, Prod.mk.injEq] at hs
            obtain ⟨hs1, -⟩ := hs
            refine ⟨ws, cur, cor, ?_, ?_, ?_, ?_, ?_⟩
            · rw [← hs1]; exact hw
            · rw [← hs1]; exact hc
            · rw [← hs1]; exact hcor
            · omega
            · omega
  | advance s0 s1 rand1 rand2 out hr hn hout ih =>
    obtain ⟨ws, cur, cor, hw, hc, hcor, hain⟩ := ih
    simp only [quiz_next, hc, hw, Option.getD_some] at hn
    by_cases hle : ws.length ≤ cur + 1
    · rw [dif_pos hle] at hn
      rw [Except.ok.injEq, Prod.mk.injEq] at hn
      exact absurd hn.2 hout.symm
    · rw [dif_neg hle] at hn
      split at hn
      · exact absurd hn (by simp)
      · rw [Except.ok.injEq, Prod.mk.injEq] at hn
        obtain ⟨hs1, -⟩ := hn
        refine ⟨ws, cur + 1, cor, ?_, ?_, ?_, ?_, ?_⟩
        · rw [← hs1]
        · rw [← hs1]
        · rw [← hs1]; exact hcor
        · omega
        · omega
  | advanceEnd s0 s1 rand1 rand2 hr hn ih =>
    obtain ⟨ws, cur, cor, hw, hc, hcor, hain⟩ := ih
    simp only [quiz_next, hc, hw, Option.getD_some] at hn
    by_cases hle : ws.length ≤ cur + 1
    · rw [dif_pos hle] at hn
      rw [Except.ok.injEq, Prod.mk.injEq] at hn
      obtain ⟨hs1, -⟩ := hn
      refine ⟨ws, cur + 1, cor, ?_, ?_, ?_, ?_, ?_⟩
      · rw [← hs1]
      · rw [← hs1]
      · rw [← hs1]; exact hcor
      · omega
      · omega
    · rw [dif_neg hle] at hn
      split at hn
      · exact absurd hn (by simp)
      · rw [Except.ok.injEq, Prod.mk.injEq] at hn
        exact absurd hn.2 (by simp)

theorem quizReach_invariant_witness : QuizInv s15 QuizPhase.inProgress :=
  quizReach_invariant db12 1 s15 .inProgress
    (QuizReach.start 5 [] emptySession s15 (by rfl))

/-- C2 counterexample: directly after the first correct SubmitAnswer of a
freshly started 5-question quiz the correct counter is 1 while the cursor
is still 0, so correct_count <= current_position fails at a point between
Start and Result. -/
theorem quiz_submit_invariant_cex :
    quiz_start db12 1 5 [] emptySession = .ok (s15, .redirectQuestion)
    ∧ quiz_submit db12 1 1 s15 = .ok (s15c, r"Correct!")
    ∧ s15c.quiz_correct = some 1 ∧ s15c.quiz_current = some 0
    ∧ ¬((1 : Nat) ≤ 0) :=
  ⟨by rfl, by rfl, by rfl, by rfl, by omega⟩
